import Mathlib

/-!
Verification of `src/src/audio.rs` (avlec/audios-lib).

A shallow embedding of the audio producer/consumer pipeline of
`src/src/audio.rs`:

* `SourceType.from_local` (source classification, lines 20–35) is embedded
  over strings modelled as `List Char`, with Rust's `str::split` modelled by
  `splitSep` and `expect`-panics made explicit through `RunResult`;
* the FLAC decode loop of `AudioProducer::connect` (lines 193–215) and the
  real-time callback of `AudioConsumer::connect` (lines 97–128) are embedded
  over an explicit FIFO channel state (`Channel`), with `f32` sample values
  modelled exactly as rationals;
* `std::thread::spawn` panic semantics (a panic unwinds only the spawned
  thread, the spawning process continues) are modelled where a claim is about
  what a decode-open failure terminates.
-/

set_option autoImplicit false

namespace AudiosLib

/-- Result of running Rust code that may `panic!`/`expect`: either a value or
a panic carrying the panic message. -/
inductive RunResult (α : Type) where
  | ok (val : α)
  | panic (msg : String)
deriving DecidableEq

/-- Whether a `RunResult` returned normally. -/
def RunResult.isOk {α : Type} : RunResult α → Bool
  | .ok _ => true
  | .panic _ => false

/-- `enum SourceType` of `audio.rs` lines 14–18.  Identifiers are modelled as
`List Char`. -/
inductive SourceType where
  | FLAC (file : List Char)
  | SOURCELESS
  | UNSUPPORTED
deriving DecidableEq

/-- Rust's `str::split(sep)` on a string modelled as a list of characters:
splits at every occurrence of `sep`, keeping empty segments, and yields `[[]]`
on the empty string (Rust's `"".split('.')` yields one empty item). -/
def splitSep (sep : Char) : List Char → List (List Char)
  | [] => [[]]
  | c :: cs =>
    if c = sep then [] :: splitSep sep cs
    else
      match splitSep sep cs with
      | [] => [[c]]
      | s :: ss => (c :: s) :: ss

/-- `file.split(".")` of `from_local` (line 21). -/
def splitDot (file : List Char) : List (List Char) :=
  splitSep '.' file

/-- The recognized decodable extension, lowercase (`"flac"`, line 31). -/
def flacChars : List Char := ['f', 'l', 'a', 'c']

/-- `SourceType::from_local` (lines 20–35).  The iterator's two `next()`
calls are the first two elements of the split; each `expect` is a `panic`
branch with the message of the source.  `to_lowercase` is modelled
character-wise (`Char.toLower`), which agrees with Rust on every string for
the three comparisons performed here, all against ASCII literals. -/
def from_local (file : List Char) : RunResult SourceType :=
  match splitDot file with
  | [] => .panic "empty string provided for audio source."
  | _ :: rest =>
    match rest with
    | [] => .panic "source audio file has no file extension."
    | file_extension :: _ =>
      if file_extension.map Char.toLower = flacChars then .ok (.FLAC file)
      else if file_extension = [] then .ok .SOURCELESS
      else .ok .UNSUPPORTED

/-- The extension segment `from_local` classifies by: the second element of
the dot-split of the whole identifier (the second `next()`, line 28). -/
def extSeg (file : List Char) : Option (List Char) :=
  (splitDot file).get? 1

/-- The final path segment of an identifier: the text after the last `/`. -/
def lastPathSegment (file : List Char) : List Char :=
  (splitSep '/' file).getLastD []

/-- Modelled from the spec's words, not from the source (refinement target
for the claim that classification first isolates the final path segment):
the text between the first and second dot of the final path segment. -/
def claimedExtension (file : List Char) : Option (List Char) :=
  (splitDot (lastPathSegment file)).get? 1

/-- Case-insensitive ".flac" suffix test on an identifier (the spec's
"ending in `.flac` in any letter case"). -/
def endsInFlacCI (file : List Char) : Bool :=
  List.isSuffixOf ('.' :: flacChars) (file.map Char.toLower)

/-! ## The sample queue, the decode loop and the real-time callback

Sample values (`f32` in the source) are modelled exactly as rationals: every
arithmetic step a claim mentions (`/ i32::MAX`, `* 160.0`, the zero
substitutions) is embedded with exact arithmetic on `ℚ`. -/

/-- `std::i32::MAX` as an exact rational (the normalization divisor of
line 208). -/
def i32Max : ℚ := 2147483647

/-- The scaling of line 208 applied to an already-unwrapped decoder sample:
`(s as f32) / (std::i32::MAX as f32) * 160.0`. -/
def scaleSample (s : ℤ) : ℚ := (s : ℚ) / i32Max * 160

/-- One item of claxon's `samples()` iterator: a per-sample decode result,
`Ok` with the native `i32` sample or `Err`. -/
abbrev DecodeResult : Type := Except Unit ℤ

/-- `sample.unwrap_or(0)` of line 208: the native sample on success, `0` on a
per-sample decode error. -/
def unwrapOr0 : DecodeResult → ℤ
  | .ok v => v
  | .error _ => 0

/-- The `mpsc::channel` of `f32` samples, modelled by its FIFO buffer state:
`send` appends at the tail, receives take from the head. -/
structure Channel where
  buf : List ℚ
deriving DecidableEq

/-- `data_channel.send(s)` (line 209): enqueue at the tail. -/
def Channel.send (c : Channel) (v : ℚ) : Channel := ⟨c.buf ++ [v]⟩

/-- The timeout of the consumer's receive,
`Duration::from_millis(1)` (line 112), in milliseconds. -/
def recvTimeoutMillis : ℕ := 1

/-- `data_channel.recv_timeout(1ms)` (line 112): the head of the queue when
one is present, and a timeout (`none`) when the queue is empty — the only
case in which the bounded wait elapses with nothing received. -/
def Channel.recvTimeout (c : Channel) : Option ℚ × Channel :=
  match c.buf with
  | [] => (none, c)
  | v :: rest => (some v, ⟨rest⟩)

/-- The producer's decode loop (lines 207–210): for each per-sample decode
result, substitute `0` on error, scale, and send on the channel; no result
aborts the loop. -/
def decodeLoop : List DecodeResult → Channel → Channel
  | [], c => c
  | s :: rest, c => decodeLoop rest (c.send (scaleSample (unwrapOr0 s)))

/-- One callback invocation of `AudioConsumer::connect` (lines 102–116) on a
buffer of `n` frame slots: for each slot in order, one `recv_timeout(1ms)` is
attempted, its result defaulted to `0.0` (`unwrap_or(0.0f32)`, line 112), and
the value written to the slot (`cpal::Sample::from(&s)` on an `f32` buffer is
the identity).  Returns the written buffer and the channel state left
behind. -/
def callbackFill (c : Channel) : ℕ → List ℚ × Channel
  | 0 => ([], c)
  | n + 1 =>
    let r := c.recvTimeout
    let s := r.1.getD 0
    let rest := callbackFill r.2 n
    (s :: rest.1, rest.2)

/-! ## Producer connect: thread spawning per source type -/

/-- Whether `AudioProducer::connect` (lines 193–214) spawns a decode thread:
`Some(std::thread::spawn(..))` only in the `FLAC` arm, `None` in the
`SOURCELESS` and `UNSUPPORTED` arms. -/
def spawnsThread : SourceType → Bool
  | .FLAC _ => true
  | .SOURCELESS => false
  | .UNSUPPORTED => false

/-- Every sample the producer enqueues over its whole lifetime, given the
decoder's per-sample results for a decodable source: the decode loop's output
in the `FLAC` arm, nothing in the `SOURCELESS` and `UNSUPPORTED` arms (no
thread runs, `connect` itself never sends). -/
def producerSends (st : SourceType) (decoded : List DecodeResult) : List ℚ :=
  match st with
  | .FLAC _ => (decodeLoop decoded ⟨[]⟩).buf
  | .SOURCELESS => []
  | .UNSUPPORTED => []

/-! ## Decode-open failure -/

/-- How a spawned thread's run ends: normal completion with the samples it
sent, or a panic with the panic message. -/
inductive ThreadOutcome where
  | finished (sent : List ℚ)
  | panicked (msg : String)
deriving DecidableEq

/-- The FLAC decode thread's body (lines 194–211):
`claxon::FlacReader::open(..).expect("no file.")` panics the thread when the
open fails (`openResult = none`); otherwise the decode loop runs over the
decoder's per-sample results. -/
def flacThreadRun (openResult : Option (List DecodeResult)) : ThreadOutcome :=
  match openResult with
  | none => .panicked "no file."
  | some samples => .finished (decodeLoop samples ⟨[]⟩).buf

/-- Modelled Rust semantics of `std::thread::spawn` (line 194): a panic
unwinds only the spawned thread; the spawning process continues (the
`JoinHandle` is stored in `self.thread` and never joined, so the panic is
never even observed by the main thread). -/
def spawnedPanicAbortsProcess : Bool := false

/-- The value the consumer writes into a slot on a receive timeout:
`unwrap_or(0.0f32)` (line 112). -/
def underrunSilence : ℚ := 0

/-! ## Lemmas about `splitSep` -/

/-- Rust's `split` always yields at least one segment, even on the empty
string. -/
theorem splitSep_ne_nil (sep : Char) (l : List Char) : splitSep sep l ≠ [] := by
  cases l with
  | nil => simp [splitSep]
  | cons c cs =>
    rw [splitSep]
    split
    · simp
    · split <;> simp

/-- A list without the separator splits into the single segment it is. -/
theorem splitSep_of_not_mem (sep : Char) (l : List Char) (h : sep ∉ l) :
    splitSep sep l = [l] := by
  induction l with
  | nil => rfl
  | cons c cs ih =>
    have hc : ¬ c = sep := fun hc => h (hc ▸ List.mem_cons_self c cs)
    have hcs : sep ∉ cs := fun hm => h (List.mem_cons_of_mem _ hm)
    simp [splitSep, if_neg hc, ih hcs]

/-- Splitting at the first separator occurrence: the separator-free prefix
becomes the first segment and the rest splits on its own. -/
theorem splitSep_append (sep : Char) (a r : List Char) (h : sep ∉ a) :
    splitSep sep (a ++ sep :: r) = a :: splitSep sep r := by
  induction a with
  | nil => simp [splitSep]
  | cons c cs ih =>
    have hc : ¬ c = sep := fun hc => h (hc ▸ List.mem_cons_self c cs)
    have hcs : sep ∉ cs := fun hm => h (List.mem_cons_of_mem _ hm)
    simp [splitSep, if_neg hc, ih hcs]

/-- A list containing the separator splits into at least two segments. -/
theorem two_le_length_splitSep (sep : Char) (l : List Char) (h : sep ∈ l) :
    2 ≤ (splitSep sep l).length := by
  induction l with
  | nil => cases h
  | cons c cs ih =>
    by_cases hc : c = sep
    · subst hc
      have h2 : 1 ≤ (splitSep c cs).length := by
        cases hsp : splitSep c cs with
        | nil => exact absurd hsp (splitSep_ne_nil c cs)
        | cons s ss => simp
      have heq : splitSep c (c :: cs) = [] :: splitSep c cs := by
        simp [splitSep]
      rw [heq, List.length_cons]
      omega
    · have hcs : sep ∈ cs := by
        rcases List.mem_cons.mp h with h1 | h1
        · exact absurd h1.symm hc
        · exact h1
      obtain ⟨s, ss, heq⟩ : ∃ s ss, splitSep sep cs = s :: ss := by
        cases hsp : splitSep sep cs with
        | nil => exact absurd hsp (splitSep_ne_nil sep cs)
        | cons s ss => exact ⟨s, ss, rfl⟩
      have h2 := ih hcs
      rw [heq] at h2
      simp only [splitSep, if_neg hc, heq, List.length_cons] at *
      omega

/-- `splitDot` version of `splitSep_ne_nil`. -/
theorem splitDot_ne_nil (l : List Char) : splitDot l ≠ [] :=
  splitSep_ne_nil '.' l

/-- `splitDot` version of `splitSep_of_not_mem`. -/
theorem splitDot_of_not_mem (l : List Char) (h : '.' ∉ l) : splitDot l = [l] :=
  splitSep_of_not_mem '.' l h

/-- `splitDot` version of `splitSep_append`. -/
theorem splitDot_append (a r : List Char) (h : '.' ∉ a) :
    splitDot (a ++ '.' :: r) = a :: splitDot r :=
  splitSep_append '.' a r h

/-- An identifier with an extension segment splits as filename, extension,
remainder. -/
theorem splitDot_of_extSeg (file ext : List Char) (h : extSeg file = some ext) :
    ∃ a t, splitDot file = a :: ext :: t := by
  unfold extSeg at h
  cases hsp : splitDot file with
  | nil => rw [hsp] at h; simp [List.get?_nil] at h
  | cons a rest =>
    cases rest with
    | nil => rw [hsp] at h; simp [List.get?_cons_succ, List.get?_nil] at h
    | cons b t =>
      rw [hsp] at h
      have hb : b = ext := by
        simpa [List.get?_cons_succ, List.get?_cons_zero] using h
      exact ⟨a, t, by rw [hb]⟩

/-- `splitDot` version of `two_le_length_splitSep`. -/
theorem two_le_length_splitDot (l : List Char) (h : '.' ∈ l) :
    2 ≤ (splitDot l).length :=
  two_le_length_splitSep '.' l h

/-- An identifier containing a dot has at least two dot-split segments. -/
theorem exists_splitDot_cons_cons (file : List Char) (h : '.' ∈ file) :
    ∃ a e t, splitDot file = a :: e :: t := by
  have h2 := two_le_length_splitDot file h
  cases hsp : splitDot file with
  | nil => exact absurd hsp (splitDot_ne_nil file)
  | cons a rest =>
    cases rest with
    | nil =>
      rw [hsp] at h2
      simp at h2
    | cons e t => exact ⟨a, e, t, rfl⟩

/-- `from_local` unfolded on an identifier whose dot-split has a second
segment: the classification is the extension's `match` of lines 30–34. -/
theorem from_local_of_splitDot (file a e : List Char) (t : List (List Char))
    (h : splitDot file = a :: e :: t) :
    from_local file =
      if e.map Char.toLower = flacChars then .ok (.FLAC file)
      else if e = [] then .ok .SOURCELESS else .ok .UNSUPPORTED := by
  unfold from_local
  rw [h]

/-- `from_local` panics at the second `expect` on a dot-free identifier. -/
theorem from_local_of_not_dot (file : List Char) (h : '.' ∉ file) :
    from_local file = .panic "source audio file has no file extension." := by
  unfold from_local
  rw [splitDot_of_not_mem file h]

/-- The consumer's callback on a buffer of `n` slots: the queue's first `n`
values in order, padded with silence for every slot past the queue's length,
and exactly the first `n` values consumed. -/
theorem callbackFill_eq (n : ℕ) (c : Channel) :
    callbackFill c n
      = (c.buf.take n ++ List.replicate (n - c.buf.length) 0, ⟨c.buf.drop n⟩) := by
  induction n generalizing c with
  | zero => simp [callbackFill]
  | succ n ih =>
    cases c with
    | mk buf =>
      cases buf with
      | nil =>
        simp [callbackFill, Channel.recvTimeout, ih, List.replicate_succ]
      | cons v rest =>
        simp [callbackFill, Channel.recvTimeout, ih, Nat.succ_sub_succ]

/-- The decode loop appends exactly the scaled decoder sequence, in order. -/
theorem decodeLoop_buf (samples : List DecodeResult) (c : Channel) :
    (decodeLoop samples c).buf
      = c.buf ++ samples.map (fun s => scaleSample (unwrapOr0 s)) := by
  induction samples generalizing c with
  | nil => simp [decodeLoop]
  | cons s rest ih =>
    simp [decodeLoop, Channel.send, ih]

/-! ## The claims -/

/-- C1: the decode task enqueues exactly the decoder's sample sequence in
original order, each successfully decoded sample scaled by
`s / i32::MAX * 160` and `0` substituted before scaling for a per-sample
decode error; no bad sample aborts the stream (one enqueued value per decoder
result), and the FIFO queue delivers that sequence to the consumer
unreordered. -/
theorem producer_enqueues_scaled_sequence_in_order
    (samples : List DecodeResult) (c : Channel) :
    (decodeLoop samples c).buf
        = c.buf ++ samples.map (fun s => scaleSample (unwrapOr0 s)) ∧
      (decodeLoop samples ⟨[]⟩).buf
        = samples.map (fun s => scaleSample (unwrapOr0 s)) ∧
      ((decodeLoop samples ⟨[]⟩).buf).length = samples.length ∧
      (callbackFill (decodeLoop samples ⟨[]⟩) samples.length).1
        = samples.map (fun s => scaleSample (unwrapOr0 s)) := by
  have h0 := decodeLoop_buf samples ⟨[]⟩
  simp only [List.nil_append] at h0
  refine ⟨decodeLoop_buf samples c, h0, by rw [h0]; simp, ?_⟩
  rw [callbackFill_eq]
  rw [h0]
  simp

/-- C2: each callback invocation attempts exactly one receive per output
frame slot with the fixed 1 ms timeout; on success the received value is
written to the slot, on timeout silence is written, so a buffer of `n` slots
always holds the queue's first `n` values followed by silence padding, a
permanently empty queue yields all-silence buffers, and no slot waits more
than the one bounded receive. -/
theorem callback_one_timed_recv_per_slot (n : ℕ) (c : Channel) :
    (callbackFill c n).1
        = c.buf.take n ++ List.replicate (n - c.buf.length) underrunSilence ∧
      ((callbackFill c n).1).length = n ∧
      (callbackFill c n).2.buf = c.buf.drop n ∧
      (callbackFill ⟨[]⟩ n).1 = List.replicate n underrunSilence ∧
      recvTimeoutMillis = 1 := by
  have h := callbackFill_eq n c
  have he := callbackFill_eq n ⟨[]⟩
  refine ⟨by rw [h]; simp [underrunSilence], ?_, by rw [h],
    by rw [he]; simp [underrunSilence], rfl⟩
  rw [h]
  simp only [List.length_append, List.length_take, List.length_replicate]
  omega

/-- C3 counterexample: `"a.b.flac"` ends in `.flac` (lower case) yet
classifies as `UNSUPPORTED`, because the extension is taken between the first
and second dot (`"b"`), refuting "every identifier ending in `.flac` in any
letter case yields `DecodableFile`". -/
theorem flac_suffix_unsupported_cex :
    endsInFlacCI "a.b.flac".data = true ∧
      from_local "a.b.flac".data = .ok .UNSUPPORTED := by
  decide

/-- C3 amended: classification is by the extension segment — the text between
the first and the second dot of the identifier — not by the identifier's
suffix: extension lowercasing to `flac` yields `DecodableFile`, the empty
extension yields `Empty` (and nothing else does), any other extension yields
`Unsupported`. -/
theorem classify_by_extension_segment (file ext : List Char)
    (h : extSeg file = some ext) :
    from_local file =
        .ok (if ext.map Char.toLower = flacChars then .FLAC file
          else if ext = [] then .SOURCELESS else .UNSUPPORTED) ∧
      (from_local file = .ok .SOURCELESS ↔ ext = []) := by
  obtain ⟨a, t, heq⟩ := splitDot_of_extSeg file ext h
  have hfl : from_local file =
      if ext.map Char.toLower = flacChars then .ok (.FLAC file)
      else if ext = [] then .ok .SOURCELESS else .ok .UNSUPPORTED := by
    unfold from_local
    rw [heq]
  constructor
  · rw [hfl]
    split
    · rfl
    · split <;> rfl
  · rw [hfl]
    by_cases hf : ext.map Char.toLower = flacChars
    · rw [if_pos hf]
      constructor
      · intro hco
        exact absurd hco (fun hco => RunResult.noConfusion hco
          (fun hco => SourceType.noConfusion hco))
      · intro he
        rw [he] at hf
        exact absurd hf (by decide)
    · rw [if_neg hf]
      by_cases he : ext = []
      · rw [if_pos he]
        simp [he]
      · rw [if_neg he]
        constructor
        · intro hco
          exact absurd hco (fun hco => RunResult.noConfusion hco
            (fun hco => SourceType.noConfusion hco))
        · intro h1
          exact absurd h1 he

/-- C3 amended witness: a one-dot `.flac` identifier classifies as
`DecodableFile`. -/
theorem classify_by_extension_segment_witness :
    from_local "x.flac".data = .ok (.FLAC "x.flac".data) := by
  have h := (classify_by_extension_segment "x.flac".data "flac".data
    (by decide)).1
  rw [h]
  decide

/-- C4 counterexample: classification is not total — on `"abc"` (no dot) it
aborts with the no-extension panic instead of returning a `SourceKind`. -/
theorem classify_not_total_cex :
    (from_local "abc".data).isOk = false ∧
      from_local "abc".data
        = .panic "source audio file has no file extension." := by
  decide

/-- C4 amended: on every identifier containing at least one dot,
classification is total (returns exactly one `SourceKind`, never aborts) and
calling it twice on the same identifier yields the same result; identifiers
without a dot abort instead. -/
theorem classify_total_and_idempotent_on_dotted (file : List Char)
    (h : '.' ∈ file) :
    (from_local file).isOk = true ∧ from_local file = from_local file := by
  refine ⟨?_, rfl⟩
  obtain ⟨a, e, t, heq⟩ := exists_splitDot_cons_cons file h
  rw [from_local_of_splitDot file a e t heq]
  split
  · rfl
  · split <;> rfl

/-- C4 amended witness: a dotted identifier classifies without aborting. -/
theorem classify_total_on_dotted_witness :
    (from_local "a.txt".data).isOk = true :=
  (classify_total_and_idempotent_on_dotted "a.txt".data (by decide)).1

/-- C5: classification aborts (returns no `SourceKind`) on every identifier
containing no dot — in particular on the empty identifier, which aborts at
the no-extension check. -/
theorem classify_aborts_without_dot (file : List Char) (h : '.' ∉ file) :
    from_local file = .panic "source audio file has no file extension." ∧
      (from_local file).isOk = false ∧
      from_local [] = .panic "source audio file has no file extension." := by
  have hp : from_local file
      = .panic "source audio file has no file extension." := by
    unfold from_local
    rw [show splitDot file = [file] from splitDot_of_not_mem file h]
  exact ⟨hp, by rw [hp]; rfl, by decide⟩

/-- C5 witness: the dot-free identifier `"abc"` aborts. -/
theorem classify_aborts_without_dot_witness :
    from_local "abc".data
      = .panic "source audio file has no file extension." :=
  (classify_aborts_without_dot "abc".data (by decide)).1

/-- C6 counterexample: the final path segment is never isolated — on
`"a.b/c.flac"` the extension used is `"b/c"` (split of the whole identifier
at its first dot), not the claimed `"flac"` (first-dot split of the final
path segment), and the identifier classifies as `UNSUPPORTED`. -/
theorem extension_ignores_path_segment_cex :
    extSeg "a.b/c.flac".data ≠ claimedExtension "a.b/c.flac".data ∧
      extSeg "a.b/c.flac".data = some "b/c".data ∧
      claimedExtension "a.b/c.flac".data = some "flac".data ∧
      from_local "a.b/c.flac".data = .ok .UNSUPPORTED := by
  decide

/-- C6 amended: the extension used for classification is the text between
the first and second dot of the whole identifier (no path-segment isolation),
so multi-dot names split at the first dot rather than the last. -/
theorem extension_between_first_two_dots (a b c : List Char)
    (ha : '.' ∉ a) (hb : '.' ∉ b) :
    extSeg (a ++ '.' :: (b ++ '.' :: c)) = some b ∧
      extSeg (a ++ '.' :: b) = some b := by
  constructor
  · unfold extSeg
    rw [splitDot_append a _ ha, splitDot_append b c hb]
    rfl
  · unfold extSeg
    rw [splitDot_append a b ha, splitDot_of_not_mem b hb]
    rfl

/-- C6 amended witness: `"untitled.new.flac"` uses extension `"new"` — the
first-dot split the source comment itself describes. -/
theorem extension_between_first_two_dots_witness :
    extSeg "untitled.new.flac".data = some "new".data := by
  have e : "untitled.new.flac".data
      = "untitled".data ++ '.' :: ("new".data ++ '.' :: "flac".data) := by
    decide
  rw [e]
  exact (extension_between_first_two_dots "untitled".data "new".data
    "flac".data (by decide) (by decide)).1

/-- C7: a source classifying as `Empty` or `Unsupported` spawns no decode
thread, and the producer sends nothing on the queue for its whole lifetime,
whatever the decoder would have produced. -/
theorem silent_sources_spawn_nothing (file : List Char) (st : SourceType)
    (decoded : List DecodeResult)
    (hclass : from_local file = .ok st)
    (h : st = .SOURCELESS ∨ st = .UNSUPPORTED) :
    spawnsThread st = false ∧ producerSends st decoded = [] := by
  rcases h with h | h <;> subst h <;> exact ⟨rfl, rfl⟩

/-- C7 witness: `"a.txt"` classifies `UNSUPPORTED`; no thread, no sends. -/
theorem silent_sources_spawn_nothing_witness :
    spawnsThread .UNSUPPORTED = false
      ∧ producerSends .UNSUPPORTED [Except.ok 7] = [] :=
  silent_sources_spawn_nothing "a.txt".data .UNSUPPORTED [Except.ok 7]
    (by decide) (Or.inr rfl)

/-- C8 counterexample: a decode-open failure panics only the spawned decode
thread (`expect("no file.")` runs inside `std::thread::spawn`, whose panic
does not abort the process); the consumer callback keeps running and fills
its buffers with silence — a partial-failure mode, refuting "terminates the
whole process". -/
theorem open_failure_partial_failure_cex :
    flacThreadRun none = .panicked "no file." ∧
      spawnedPanicAbortsProcess = false ∧
      (callbackFill ⟨[]⟩ 4).1 = List.replicate 4 underrunSilence := by
  refine ⟨rfl, rfl, ?_⟩
  rw [callbackFill_eq]
  simp [underrunSilence]

/-- C8 amended: a decode-open failure terminates only the decode thread
(panic message `"no file."`), not the process; the consumer keeps running and
every later callback buffer fills entirely with silence. -/
theorem open_failure_panics_decode_thread_only (n : ℕ) :
    flacThreadRun none = .panicked "no file." ∧
      spawnedPanicAbortsProcess = false ∧
      (callbackFill ⟨[]⟩ n).1 = List.replicate n underrunSilence := by
  refine ⟨rfl, rfl, ?_⟩
  rw [callbackFill_eq]
  simp [underrunSilence]

/-- C9: splitting any identifier on `.` always yields at least one element,
so the first abort branch (message "empty string provided for audio
source.") is unreachable for every input; the empty identifier instead
aborts at the subsequent no-extension check. -/
theorem first_panic_branch_unreachable (file : List Char) :
    splitDot file ≠ [] ∧
      from_local file ≠ .panic "empty string provided for audio source." ∧
      from_local [] = .panic "source audio file has no file extension." := by
  refine ⟨splitDot_ne_nil file, ?_, by decide⟩
  by_cases h : '.' ∈ file
  · obtain ⟨a, e, t, heq⟩ := exists_splitDot_cons_cons file h
    rw [from_local_of_splitDot file a e t heq]
    split
    · simp
    · split <;> simp
  · rw [from_local_of_not_dot file h]
    decide

/-- C9 closed instance: the no-dot identifier `"abc"` does not hit the
first panic branch. -/
theorem first_panic_branch_unreachable_witness :
    from_local "abc".data
      ≠ RunResult.panic "empty string provided for audio source." :=
  (first_panic_branch_unreachable "abc".data).2.1

/-- C10: the per-sample error substitute scales to exactly `0`
(`0 / i32::MAX * 160 = 0`), which is exactly the silence the consumer writes
on an underrun timeout, so an error-substituted sample and underrun silence
deliver the identical value to the device. -/
theorem error_silence_equals_underrun_silence :
    scaleSample (unwrapOr0 (Except.error ())) = underrunSilence ∧
      scaleSample 0 = 0 ∧
      (callbackFill ⟨[]⟩ 1).1 = [underrunSilence] ∧
      (callbackFill ⟨[scaleSample (unwrapOr0 (Except.error ()))]⟩ 1).1
        = [underrunSilence] := by
  have h0 : scaleSample 0 = 0 := by
    simp [scaleSample]
  have he : scaleSample (unwrapOr0 (Except.error ())) = underrunSilence := by
    rw [show unwrapOr0 (Except.error ()) = 0 from rfl, h0]
    rfl
  refine ⟨he, h0, rfl, ?_⟩
  rw [callbackFill_eq]
  simp [he]

end AudiosLib
